import Mathlib

/-!
Shallow embedding of the silx profile-extraction code
(`silx/gui/plot/PlotTools.py`) and procedural-mesh generation code
(`silx/gui/plot3d/items/mesh.py`), with theorems checking the
natural-language specification against the code.

Conventions:
- Python floats are idealized as exact rationals (`ℚ`) for the 2D profile
  code, and as reals (`ℝ`) for the trigonometric mesh code.
- A 2D image is a pair of dimensions plus a total index function
  `ℕ → ℕ → ℚ` (row-major, `img row col`).
- `numpy.mean` of an empty slice yields NaN (with a runtime warning);
  profile samples are therefore `Option ℚ`, with `none` standing for NaN.
- Python `int(x)` truncates toward zero; this is `pyInt` below.
- Python `assert` failures are modelled as `Except.error ()`.
-/

namespace Silx

/-- Python `int(q)`: truncation toward zero. -/
def pyInt (q : ℚ) : ℤ := if 0 ≤ q then ⌊q⌋ else ⌈q⌉

/-- Mean of a list of samples; `none` models the NaN produced by
`numpy.mean` of an empty slice. -/
def meanQ (l : List ℚ) : Option ℚ :=
  if l.length = 0 then none else some (l.sum / l.length)

/-- A 2D image as an index function (row, col). Dimensions are passed
separately, mirroring `image.shape`. -/
abbrev Img := ℕ → ℕ → ℚ

/-- Result of `ProfileToolBar._alignedFullProfile`: the profile samples and
the effective ROI polygon, as the x-coordinate and y-coordinate lists of its
4 corners (the `area` pair of the source). -/
structure FullProfileResult where
  profile : List (Option ℚ)
  areaX : List ℚ
  areaY : List ℚ
  deriving DecidableEq, Repr

/-- The conversion `imgPos = int((position - origin[1 - axis]) /
scale[1 - axis])` of `_alignedFullProfile` (PlotTools.py, line 404). -/
def fullImgPos (origin scale : ℚ × ℚ) (position : ℚ) (axis : Bool) : ℤ :=
  pyInt ((position - (if axis then origin.1 else origin.2)) /
    (if axis then scale.1 else scale.2))

/-- The clip `roiWidth = min(height, roiWidth)` of `_alignedFullProfile`
(PlotTools.py, line 412); `h` is the image extent along the reduction
axis (the height after the optional transpose). -/
def roiWidthClamped (h : ℕ) (roiWidth : ℤ) : ℤ := min (h : ℤ) roiWidth

/-- The unclamped band start `int(int(imgPos) + 0.5 - roiWidth / 2.)` of
`_alignedFullProfile` (PlotTools.py, line 415), using the already clamped
width. -/
def roiStartRaw (h : ℕ) (imgPos roiWidth : ℤ) : ℤ :=
  pyInt ((imgPos : ℚ) + 1/2 - ((roiWidthClamped h roiWidth : ℤ) : ℚ)/2)

/-- The clamp `start = min(max(0, start), height - roiWidth)` of
`_alignedFullProfile` (PlotTools.py, line 416). -/
def roiStartClamped (h : ℕ) (imgPos roiWidth : ℤ) : ℤ :=
  min (max 0 (roiStartRaw h imgPos roiWidth))
    ((h : ℤ) - roiWidthClamped h roiWidth)

/-- Embedding of `ProfileToolBar._alignedFullProfile` (PlotTools.py,
lines 388-436). `axis = false` is the horizontal profile (Python `axis=0`),
`axis = true` the vertical one (Python `axis=1`, image transposed). -/
def alignedFullProfile (height width : ℕ) (img : Img) (origin scale : ℚ × ℚ)
    (position : ℚ) (roiWidth : ℤ) (axis : Bool) : FullProfileResult :=
  -- imgPos = int((position - origin[1 - axis]) / scale[1 - axis])
  let imgPos : ℤ := fullImgPos origin scale position axis
  -- if axis == 1: image = numpy.transpose(image); height, width = image.shape
  let image : Img := if axis then (fun i j => img j i) else img
  let h : ℕ := if axis then width else height
  let w : ℕ := if axis then height else width
  -- roiWidth = min(height, roiWidth)
  let rw : ℤ := roiWidthClamped h roiWidth
  -- start = min(max(0, int(int(imgPos) + 0.5 - roiWidth / 2.)), height - roiWidth)
  let start : ℤ := roiStartClamped h imgPos roiWidth
  -- end = start + roiWidth
  let endP : ℤ := start + rw
  -- profile = image[max(0, start):min(end, height), :].mean(axis=0)
  --           if start < height and end > 0 else zeros((width,))
  let profile : List (Option ℚ) :=
    if start < (h : ℤ) ∧ 0 < endP then
      (List.range w).map fun j =>
        meanQ ((List.range ((min endP (h : ℤ)) - (max 0 start)).toNat).map
          fun k => image ((max 0 start).toNat + k) j)
    else (List.range w).map fun _ => some 0
  -- profileBounds = (0, width, width, 0) * scale[0] + origin[0]
  let profileBounds : List ℚ :=
    [0, (w : ℚ), (w : ℚ), 0].map fun v => v * scale.1 + origin.1
  -- roiBounds = (start, start, end, end) * scale[1] + origin[1]
  let roiBounds : List ℚ :=
    [start, start, endP, endP].map fun v => (v : ℚ) * scale.2 + origin.2
  -- area = (profileBounds, roiBounds) if axis == 0 else (roiBounds, ...)
  if axis then ⟨profile, roiBounds, profileBounds⟩
  else ⟨profile, profileBounds, roiBounds⟩

/-- Embedding of `ProfileToolBar._alignedPartialProfile` (PlotTools.py,
lines 438-483). The two `assert`s on the ranges are modelled as
`Except.error ()` (the InvalidRange failure of the spec taxonomy).
`axis = false` is Python `axis=0` (reduce rows), `axis = true` is `axis=1`.
The numpy slice assignment `profile[offset:offset+len] = imgProfile` is
rendered pointwise; for every input passing the asserts the placed block
fits inside the profile, as in numpy. -/
def alignedPartialProfile (height width : ℕ) (img : Img)
    (rowRange colRange : ℤ × ℤ) (axis : Bool) :
    Except Unit (List (Option ℚ)) :=
  if rowRange.1 < rowRange.2 then
    if colRange.1 < colRange.2 then
      -- profileRange = colRange if axis == 0 else rowRange
      let profileRange : ℤ × ℤ := if axis then rowRange else colRange
      let profileLength : ℕ := (profileRange.2 - profileRange.1).natAbs
      -- row/col bounds clipped to the image
      let rowStart : ℤ := min (max 0 rowRange.1) (height : ℤ)
      let rowEnd : ℤ := min (max 0 rowRange.2) (height : ℤ)
      let colStart : ℤ := min (max 0 colRange.1) (width : ℤ)
      let colEnd : ℤ := min (max 0 colRange.2) (width : ℤ)
      -- imgProfile = numpy.mean(image[rowStart:rowEnd, colStart:colEnd], axis)
      let imgProfile : List (Option ℚ) :=
        if axis then
          (List.range (rowEnd - rowStart).toNat).map fun i =>
            meanQ ((List.range (colEnd - colStart).toNat).map fun j =>
              img (rowStart.toNat + i) (colStart.toNat + j))
        else
          (List.range (colEnd - colStart).toNat).map fun j =>
            meanQ ((List.range (rowEnd - rowStart).toNat).map fun i =>
              img (rowStart.toNat + i) (colStart.toNat + j))
      -- offset = -min(0, profileRange[0])
      let offset : ℤ := - min 0 profileRange.1
      -- profile = zeros(profileLength); profile[offset:offset+len] = imgProfile
      let profile : List (Option ℚ) :=
        (List.range profileLength).map fun (k : ℕ) =>
          if offset ≤ (k : ℤ) ∧ (k : ℤ) < offset + imgProfile.length then
            imgProfile.getD ((k : ℤ) - offset).toNat (some 0)
          else some 0
      .ok profile
    else .error ()
  else .error ()

instance {ε α : Type} [DecidableEq ε] [DecidableEq α] :
    DecidableEq (Except ε α)
  | .error x, .error y => decidable_of_iff (x = y) (by simp)
  | .error _, .ok _ => isFalse (by simp)
  | .ok _, .error _ => isFalse (by simp)
  | .ok x, .ok y => decidable_of_iff (x = y) (by simp)

/-- Outcome of the free-line branch of `ProfileToolBar.updateProfile`:
either the axis-aligned fast path was taken (with the result of
`_alignedPartialProfile`), or the general bilinear-interpolation path
(outside the scope of the modelled claims). -/
inductive LineProfileOutcome
  | aligned (result : Except Unit (List (Option ℚ)))
  | general
  deriving DecidableEq

/-- Embedding of the free-line branch of `ProfileToolBar.updateProfile`
(PlotTools.py, lines 533-565): conversion of the two line endpoints from
plot to image (row, col) coordinates, detection of axis alignment after
truncation to int, canonical endpoint ordering, construction of the
row/col ranges and dispatch to `_alignedPartialProfile`.
`roiStart`/`roiEnd` are the (x, y) endpoints in plot coordinates. -/
def updateProfileLine (height width : ℕ) (img : Img) (origin scale : ℚ × ℚ)
    (roiStart roiEnd : ℚ × ℚ) (roiWidth : ℤ) : LineProfileOutcome :=
  -- startPt/endPt in image coords as (row, col)
  let startPt : ℚ × ℚ :=
    ((roiStart.2 - origin.2) / scale.2, (roiStart.1 - origin.1) / scale.1)
  let endPt : ℚ × ℚ :=
    ((roiEnd.2 - origin.2) / scale.2, (roiEnd.1 - origin.1) / scale.1)
  if pyInt startPt.1 = pyInt endPt.1 ∨ pyInt startPt.2 = pyInt endPt.2 then
    -- Profile is aligned with one of the axes: convert to int
    let s0 : ℤ × ℤ := (pyInt startPt.1, pyInt startPt.2)
    let e0 : ℤ × ℤ := (pyInt endPt.1, pyInt endPt.2)
    -- Ensure startPt <= endPt
    let s : ℤ × ℤ := if s0.1 > e0.1 ∨ s0.2 > e0.2 then e0 else s0
    let e : ℤ × ℤ := if s0.1 > e0.1 ∨ s0.2 > e0.2 then s0 else e0
    if s.1 = e.1 then  -- Row aligned
      let rowRange : ℤ × ℤ :=
        (pyInt ((s.1 : ℚ) + 1/2 - (roiWidth : ℚ)/2),
         pyInt ((s.1 : ℚ) + 1/2 + (roiWidth : ℚ)/2))
      let colRange : ℤ × ℤ := (s.2, e.2 + 1)
      .aligned (alignedPartialProfile height width img rowRange colRange false)
    else  -- Column aligned
      let rowRange : ℤ × ℤ := (s.1, e.1 + 1)
      let colRange : ℤ × ℤ :=
        (pyInt ((s.2 : ℚ) + 1/2 - (roiWidth : ℚ)/2),
         pyInt ((s.2 : ℚ) + 1/2 + (roiWidth : ℚ)/2))
      .aligned (alignedPartialProfile height width img rowRange colRange true)
  else .general

/-- Value returned by a user-supplied converter function of
`PositionInfo`: a real number, or any other value (kept as its `str`). -/
inductive ConvValue
  | num (q : ℚ)
  | other (s : String)
  deriving DecidableEq

/-- Text written into one field of the `PositionInfo` widget:
the literal text `Error` when the converter raised, the formatted
number (`%.7g`) for a `numbers.Real` result, or `str(value)` otherwise. -/
inductive FieldText
  | errorText
  | numText (q : ℚ)
  | strText (s : String)
  deriving DecidableEq

/-- Embedding of the field-update loop of `PositionInfo._plotEvent`
(PlotTools.py, lines 187-203): each converter is run on the event
position; a converter that raises (modelled `Except.error`) yields the
`Error` text for its own field only, and the loop continues with the
remaining fields. -/
def plotEventFields (fields : List (String × (ℚ → ℚ → Except Unit ConvValue)))
    (x y : ℚ) : List FieldText :=
  fields.map fun f =>
    match f.2 x y with
    | .error _ => .errorText
    | .ok (.num q) => .numText q
    | .ok (.other s) => .strText s

/-! ## Mesh generation (`silx/gui/plot3d/items/mesh.py`)

The geometry is embedded parametrically over a field `K` with the
transcendental functions (`cos`, `sin`, `sqrt`, `arcsin`, `π`) passed as
parameters: the source instantiates them with numpy's real-valued
functions, which is `K := ℝ` with `Real.cos` etc.; theorems that do not
depend on their values hold for every instantiation, and witnesses use a
computable one. -/

/-- A 3-component vector (one row of an `(N, 3)` numpy array). -/
abbrev Vec3 (K : Type) := K × K × K

variable {K : Type} [Field K]

/-- Componentwise `u + v`. -/
def vadd (u v : Vec3 K) : Vec3 K := (u.1 + v.1, u.2.1 + v.2.1, u.2.2 + v.2.2)

/-- Componentwise `u - v`. -/
def vsub (u v : Vec3 K) : Vec3 K := (u.1 - v.1, u.2.1 - v.2.1, u.2.2 - v.2.2)

/-- The numpy cross product of two 3-vectors. -/
def cross (u v : Vec3 K) : Vec3 K :=
  (u.2.1 * v.2.2 - u.2.2 * v.2.1,
   u.2.2 * v.1 - u.1 * v.2.2,
   u.1 * v.2.1 - u.2.1 * v.1)

/-- The six corner points `c1 .. c6` of one angular sector of
`_CylindricalVolume._setData` (mesh.py, lines 198-211), for the sector
between `angles[i] = a` and `angles[i+1] = b`. -/
structure WedgeCorners (K : Type) where
  c1 : Vec3 K
  c2 : Vec3 K
  c3 : Vec3 K
  c4 : Vec3 K
  c5 : Vec3 K
  c6 : Vec3 K

/-- Corner points of one sector (mesh.py, lines 198-211). -/
def wedgeCorners (radius height : K) (rcos rsin : K → K) (a b : K) :
    WedgeCorners K :=
  { c1 := (0, 0, -(height / 2))
    c2 := (radius * rcos a, radius * rsin a, -(height / 2))
    c3 := (radius * rcos b, radius * rsin b, -(height / 2))
    c4 := (radius * rcos a, radius * rsin a, height / 2)
    c5 := (radius * rcos b, radius * rsin b, height / 2)
    c6 := (0, 0, height / 2) }

/-- The 12 vertices (4 triangles) of one sector:
`volume[i] = [c1, c3, c2,  c2, c3, c4,  c3, c5, c4,  c4, c5, c6]`
(mesh.py, lines 213-216). -/
def wedgeVolume (radius height : K) (rcos rsin : K → K) (a b : K) :
    List (Vec3 K) :=
  let c := wedgeCorners radius height rcos rsin a b
  [c.c1, c.c3, c.c2, c.c2, c.c3, c.c4, c.c3, c.c5, c.c4, c.c4, c.c5, c.c6]

/-- The 12 per-vertex normals of one sector in the `flatFaces` branch
(mesh.py, lines 218-229), cross products written exactly as in the source
(including `numpy.cross(c6-c5, c5-c5)` at index 10). -/
def wedgeNormalsFlat (radius height : K) (rcos rsin : K → K) (a b : K) :
    List (Vec3 K) :=
  let c := wedgeCorners radius height rcos rsin a b
  [cross (vsub c.c3 c.c1) (vsub c.c2 c.c1),
   cross (vsub c.c2 c.c3) (vsub c.c1 c.c3),
   cross (vsub c.c1 c.c2) (vsub c.c3 c.c2),
   cross (vsub c.c3 c.c2) (vsub c.c4 c.c2),
   cross (vsub c.c4 c.c3) (vsub c.c2 c.c3),
   cross (vsub c.c2 c.c4) (vsub c.c3 c.c4),
   cross (vsub c.c5 c.c3) (vsub c.c4 c.c3),
   cross (vsub c.c4 c.c5) (vsub c.c3 c.c5),
   cross (vsub c.c3 c.c4) (vsub c.c5 c.c4),
   cross (vsub c.c5 c.c4) (vsub c.c6 c.c4),
   cross (vsub c.c6 c.c5) (vsub c.c5 c.c5),
   cross (vsub c.c4 c.c6) (vsub c.c5 c.c6)]

/-- The 12 per-vertex normals of one sector in the smooth branch
(mesh.py, lines 231-238). -/
def wedgeNormalsSmooth (radius height : K) (rcos rsin : K → K) (a b : K) :
    List (Vec3 K) :=
  let c := wedgeCorners radius height rcos rsin a b
  [cross (vsub c.c3 c.c1) (vsub c.c2 c.c1),
   cross (vsub c.c2 c.c3) (vsub c.c1 c.c3),
   cross (vsub c.c1 c.c2) (vsub c.c3 c.c2),
   vsub c.c2 c.c1, vsub c.c3 c.c1, vsub c.c4 c.c6,
   vsub c.c3 c.c1, vsub c.c5 c.c6, vsub c.c4 c.c6,
   cross (vsub c.c5 c.c4) (vsub c.c6 c.c4),
   cross (vsub c.c6 c.c5) (vsub c.c5 c.c5),
   cross (vsub c.c4 c.c6) (vsub c.c5 c.c6)]

/-- The consecutive angle pairs `(angles[i], angles[i+1])`,
`i = 0 .. len(angles) - 2`. -/
def sectorPairs (angles : List K) : List (K × K) := angles.zip angles.tail

/-- The whole `volume` buffer flattened to `(N, 3)`: 12 vertices per
sector. -/
def volumeList (radius height : K) (rcos rsin : K → K) (angles : List K) :
    List (Vec3 K) :=
  (sectorPairs angles).flatMap fun p =>
    wedgeVolume radius height rcos rsin p.1 p.2

/-- The whole `normal` buffer flattened to `(N, 3)`. -/
def normalList (radius height : K) (rcos rsin : K → K) (angles : List K)
    (flatFaces : Bool) : List (Vec3 K) :=
  (sectorPairs angles).flatMap fun p =>
    if flatFaces then wedgeNormalsFlat radius height rcos rsin p.1 p.2
    else wedgeNormalsSmooth radius height rcos rsin p.1 p.2

/-- The `vertices` buffer of `_setData` (mesh.py, lines 241-248): the
sector geometry tiled once per entry of `position`, each tile translated
by its entry. -/
def cylVertices (positions : List (Vec3 K)) (radius height : K)
    (rcos rsin : K → K) (angles : List K) : List (Vec3 K) :=
  positions.flatMap fun p =>
    (volumeList radius height rcos rsin angles).map fun v => vadd v p

/-- The `normals` buffer of `_setData` (mesh.py, lines 243-244): tiled
per position entry, not translated. -/
def cylNormals (positions : List (Vec3 K)) (radius height : K)
    (rcos rsin : K → K) (angles : List K) (flatFaces : Bool) :
    List (Vec3 K) :=
  positions.flatMap fun _ => normalList radius height rcos rsin angles flatFaces

/-- A `primitives.Mesh3D` object: the buffers it was built from. -/
structure MeshObj (K : Type) where
  position : List (Vec3 K)
  color : List K
  normal : Option (List (Vec3 K))
  mode : String

/-- The `_mesh` attribute after a `setData` call: either the sentinel the
source stores for empty input (the integer `0`, a non-mesh marker), or a
built mesh object. -/
inductive MeshRef (K : Type)
  | sentinel
  | mesh (m : MeshObj K)

/-- State of the item after `setData`: the `_mesh` reference and the
children of the scene primitive (previous children are removed first). -/
structure SceneState (K : Type) where
  meshRef : MeshRef K
  children : List (MeshObj K)

/-- Embedding of `Mesh.setData` (mesh.py, lines 50-81): `position = None`
or empty yields the sentinel and attaches no child; otherwise a
`Mesh3D` is built from the given buffers and attached. -/
def meshSetData (position : Option (List (Vec3 K))) (color : List K)
    (normal : Option (List (Vec3 K))) (mode : String) : SceneState K :=
  match position with
  | none => ⟨.sentinel, []⟩
  | some ps =>
    if ps.length = 0 then ⟨.sentinel, []⟩
    else
      let m : MeshObj K := ⟨ps, color, normal, mode⟩
      ⟨.mesh m, [m]⟩

/-- Embedding of `_CylindricalVolume._setData` (mesh.py, lines 158-254). -/
def cylSetData (position : Option (List (Vec3 K))) (radius height : K)
    (angles : List K) (color : List K) (flatFaces : Bool)
    (rcos rsin : K → K) : SceneState K :=
  match position with
  | none => ⟨.sentinel, []⟩
  | some ps =>
    if ps.length = 0 then ⟨.sentinel, []⟩
    else
      let m : MeshObj K :=
        ⟨cylVertices ps radius height rcos rsin angles, color,
         some (cylNormals ps radius height rcos rsin angles flatFaces),
         "triangles"⟩
      ⟨.mesh m, [m]⟩

/-- The angle list of `Box.setData` (mesh.py, lines 284-293):
`{0, alpha, alpha+beta, alpha+beta+alpha, 2π}` shifted by `-alpha/2`. -/
def boxAngles (sqrtK arcsinK : K → K) (piK : K) (sx sy : K) : List K :=
  let diagonal := sqrtK (sx ^ 2 + sy ^ 2)
  let alpha := 2 * arcsinK (sy / diagonal)
  let beta := 2 * arcsinK (sx / diagonal)
  [0, alpha, alpha + beta, alpha + beta + alpha, 2 * piK].map
    fun a => a - alpha / 2

/-- Embedding of `Box.setData` (mesh.py, lines 271-299): radius
`sqrt(sx² + sy²)/2`, height `sz`, `flatFaces = True`. -/
def boxSetData (sqrtK arcsinK rcos rsin : K → K) (piK : K)
    (position : Option (List (Vec3 K))) (size : Vec3 K) (color : List K) :
    SceneState K :=
  cylSetData position (sqrtK (size.1 ^ 2 + size.2.1 ^ 2) / 2) size.2.2
    (boxAngles sqrtK arcsinK piK size.1 size.2.1) color true rcos rsin

/-! ## Helper lemmas -/

lemma length_flatMap_const {α β : Type _} (l : List α) (f : α → List β)
    (n : ℕ) (h : ∀ a, (f a).length = n) :
    (l.flatMap f).length = l.length * n := by
  induction l with
  | nil => simp
  | cons a t ih => simp only [List.flatMap_cons, List.length_append,
      List.length_cons, h, ih]; ring

lemma sectorPairs_length (angles : List K) :
    (sectorPairs angles).length = angles.length - 1 := by
  simp [sectorPairs]

lemma wedgeVolume_length (radius height : K) (rcos rsin : K → K) (a b : K) :
    (wedgeVolume radius height rcos rsin a b).length = 12 := rfl

lemma volumeList_length (radius height : K) (rcos rsin : K → K)
    (angles : List K) :
    (volumeList radius height rcos rsin angles).length
      = (angles.length - 1) * 12 := by
  rw [volumeList, length_flatMap_const (sectorPairs angles)
    (fun p => wedgeVolume radius height rcos rsin p.1 p.2) 12
    (fun p => wedgeVolume_length ..), sectorPairs_length]

lemma normalList_length (radius height : K) (rcos rsin : K → K)
    (angles : List K) (flatFaces : Bool) :
    (normalList radius height rcos rsin angles flatFaces).length
      = (angles.length - 1) * 12 := by
  rw [normalList, length_flatMap_const _ _ 12 (fun p => by
    cases flatFaces <;> rfl), sectorPairs_length]

lemma cylVertices_length (positions : List (Vec3 K)) (radius height : K)
    (rcos rsin : K → K) (angles : List K) :
    (cylVertices positions radius height rcos rsin angles).length
      = positions.length * ((angles.length - 1) * 12) := by
  rw [cylVertices, length_flatMap_const _ _ ((angles.length - 1) * 12)
    (fun p => by rw [List.length_map, volumeList_length])]

lemma cylNormals_length (positions : List (Vec3 K)) (radius height : K)
    (rcos rsin : K → K) (angles : List K) (flatFaces : Bool) :
    (cylNormals positions radius height rcos rsin angles flatFaces).length
      = positions.length * ((angles.length - 1) * 12) := by
  rw [cylNormals, length_flatMap_const _ _ ((angles.length - 1) * 12)
    (fun p => normalList_length ..)]

lemma roiBand_facts (h : ℕ) (imgPos roiWidth : ℤ) (hh : 1 ≤ h)
    (hrw : 1 ≤ roiWidth) :
    1 ≤ roiWidthClamped h roiWidth ∧
    roiWidthClamped h roiWidth ≤ (h : ℤ) ∧
    0 ≤ roiStartClamped h imgPos roiWidth ∧
    roiStartClamped h imgPos roiWidth + roiWidthClamped h roiWidth
      ≤ (h : ℤ) := by
  unfold roiStartClamped roiWidthClamped
  omega

lemma alignedFullProfile_profile_eq (height width : ℕ) (img : Img)
    (origin scale : ℚ × ℚ) (position : ℚ) (roiWidth : ℤ) (axis : Bool)
    (hh : 1 ≤ (if axis then width else height)) (hrw : 1 ≤ roiWidth) :
    (alignedFullProfile height width img origin scale position roiWidth
        axis).profile
      = (List.range (if axis then height else width)).map fun j =>
          meanQ ((List.range (roiWidthClamped (if axis then width else height)
              roiWidth).toNat).map
            fun k => (if axis then (fun i j2 => img j2 i) else img)
              ((roiStartClamped (if axis then width else height)
                (fullImgPos origin scale position axis) roiWidth).toNat + k)
              j) := by
  cases axis
  case false =>
    obtain ⟨f1, f2, f3, f4⟩ :=
      roiBand_facts height (fullImgPos origin scale position false) roiWidth
        (by simpa using hh) hrw
    simp only [alignedFullProfile, Bool.false_eq_true, if_false]
    rw [if_pos (by omega)]
    simp only [max_eq_right f3, min_eq_left f4, add_sub_cancel_left]
  case true =>
    obtain ⟨f1, f2, f3, f4⟩ :=
      roiBand_facts width (fullImgPos origin scale position true) roiWidth
        (by simpa using hh) hrw
    simp only [alignedFullProfile, if_true]
    rw [if_pos (by omega)]
    simp only [max_eq_right f3, min_eq_left f4, add_sub_cancel_left]

lemma alignedFullProfile_roiBounds (height width : ℕ) (img : Img)
    (origin scale : ℚ × ℚ) (position : ℚ) (roiWidth : ℤ) (axis : Bool) :
    (if axis then
        (alignedFullProfile height width img origin scale position roiWidth
          axis).areaX
      else
        (alignedFullProfile height width img origin scale position roiWidth
          axis).areaY)
      = [roiStartClamped (if axis then width else height)
           (fullImgPos origin scale position axis) roiWidth,
         roiStartClamped (if axis then width else height)
           (fullImgPos origin scale position axis) roiWidth,
         roiStartClamped (if axis then width else height)
           (fullImgPos origin scale position axis) roiWidth
           + roiWidthClamped (if axis then width else height) roiWidth,
         roiStartClamped (if axis then width else height)
           (fullImgPos origin scale position axis) roiWidth
           + roiWidthClamped (if axis then width else height) roiWidth].map
          (fun v => (v : ℚ) * scale.2 + origin.2) := by
  cases axis <;> simp [alignedFullProfile]

/-! ## Claim C10 -/

/-- C10 (implicit): with at least one row after the optional transpose and
`roiWidth ≥ 1`, the clamped band satisfies `0 ≤ start` and
`start + min(height, roiWidth) ≤ height`, so the band always intersects
the image: the zero-profile fallback branch of `_alignedFullProfile` is
unreachable, and the profile is the mean over the `min(height, roiWidth)`
in-image rows of the clamped band, whatever the requested position. -/
theorem c10_zero_branch_unreachable (height width : ℕ) (img : Img)
    (origin scale : ℚ × ℚ) (position : ℚ) (roiWidth : ℤ) (axis : Bool)
    (hh : 1 ≤ (if axis then width else height)) (hrw : 1 ≤ roiWidth)
    (hscale : (if axis then scale.1 else scale.2) ≠ 0) :
    0 ≤ roiStartClamped (if axis then width else height)
        (fullImgPos origin scale position axis) roiWidth ∧
    roiStartClamped (if axis then width else height)
        (fullImgPos origin scale position axis) roiWidth
      + min (((if axis then width else height) : ℕ) : ℤ) roiWidth
      ≤ (((if axis then width else height) : ℕ) : ℤ) ∧
    (alignedFullProfile height width img origin scale position roiWidth
        axis).profile
      = (List.range (if axis then height else width)).map fun j =>
          meanQ ((List.range (roiWidthClamped (if axis then width else height)
              roiWidth).toNat).map
            fun k => (if axis then (fun i j2 => img j2 i) else img)
              ((roiStartClamped (if axis then width else height)
                (fullImgPos origin scale position axis) roiWidth).toNat + k)
              j) := by
  have hh1 : 1 ≤ (if axis then width else height) := hh
  obtain ⟨f1, f2, f3, f4⟩ :=
    roiBand_facts (if axis then width else height)
      (fullImgPos origin scale position axis) roiWidth hh1 hrw
  exact ⟨f3, f4,
    alignedFullProfile_profile_eq height width img origin scale position
      roiWidth axis hh hrw⟩

/-- Witness for C10: a concrete in-bounds evaluation through the theorem. -/
theorem c10_zero_branch_unreachable_witness :
    (alignedFullProfile 2 2 (fun _ _ => 1) (0, 0) (1, 1) 0 1 false).profile
      = [some 1, some 1] := by
  have h := c10_zero_branch_unreachable 2 2 (fun _ _ => 1) (0, 0) (1, 1) 0 1
    false (by norm_num) (by norm_num) (by norm_num)
  rw [h.2.2]
  norm_num [roiWidthClamped, roiStartClamped, roiStartRaw, fullImgPos, pyInt,
    meanQ, List.range_succ]

/-! ## Claim C1 -/

/-- C1 counterexample: a requested band entirely outside the image bounds
(`roiStartRaw = -100`, so the requested rows `[-100, -99)` miss the 2-row
image) does not produce an all-zero profile: the band is clamped into the
image and the profile is the mean of image rows, here `[1, 1]` on an
all-ones image. -/
theorem c1_counterexample :
    roiStartRaw 2 (fullImgPos (0, 0) (1, 1) (-100) false) 1 = -100 ∧
    roiStartRaw 2 (fullImgPos (0, 0) (1, 1) (-100) false) 1
      + roiWidthClamped 2 1 ≤ 0 ∧
    (alignedFullProfile 2 2 (fun _ _ => 1) (0, 0) (1, 1) (-100) 1
        false).profile = [some 1, some 1] ∧
    ¬ (alignedFullProfile 2 2 (fun _ _ => 1) (0, 0) (1, 1) (-100) 1
        false).profile = List.replicate 2 (some (0 : ℚ)) := by
  norm_num [alignedFullProfile, roiWidthClamped, roiStartClamped, roiStartRaw,
    fullImgPos, pyInt, meanQ, List.range_succ, List.replicate, Int.ceil_neg]

/-- C1 as amended: for a requested band entirely outside the image bounds
(image with at least one row after the transpose, `roiWidth ≥ 1`), the
profile still has the image-extent length along the profile axis, but it
is the mean over the band clamped into the image, not an all-zero
profile: the zero-fill branch is not taken. -/
theorem c1_out_of_bounds_band (height width : ℕ) (img : Img)
    (origin scale : ℚ × ℚ) (position : ℚ) (roiWidth : ℤ) (axis : Bool)
    (hh : 1 ≤ (if axis then width else height)) (hrw : 1 ≤ roiWidth)
    (hscale : (if axis then scale.1 else scale.2) ≠ 0)
    (houtside :
      roiStartRaw (if axis then width else height)
          (fullImgPos origin scale position axis) roiWidth
        + roiWidthClamped (if axis then width else height) roiWidth ≤ 0 ∨
      (((if axis then width else height) : ℕ) : ℤ)
        ≤ roiStartRaw (if axis then width else height)
            (fullImgPos origin scale position axis) roiWidth) :
    (alignedFullProfile height width img origin scale position roiWidth
        axis).profile.length = (if axis then height else width) ∧
    (alignedFullProfile height width img origin scale position roiWidth
        axis).profile
      = (List.range (if axis then height else width)).map fun j =>
          meanQ ((List.range (roiWidthClamped (if axis then width else height)
              roiWidth).toNat).map
            fun k => (if axis then (fun i j2 => img j2 i) else img)
              ((roiStartClamped (if axis then width else height)
                (fullImgPos origin scale position axis) roiWidth).toNat + k)
              j) := by
  have h := alignedFullProfile_profile_eq height width img origin scale
    position roiWidth axis hh hrw
  exact ⟨by rw [h]; simp, h⟩

/-- Witness for C1 as amended: the out-of-bounds selection of the
counterexample input, evaluated through the theorem. -/
theorem c1_out_of_bounds_band_witness :
    (alignedFullProfile 2 2 (fun _ _ => 1) (0, 0) (1, 1) (-100) 1
        false).profile.length = 2 := by
  have h := c1_out_of_bounds_band 2 2 (fun _ _ => 1) (0, 0) (1, 1) (-100) 1
    false (by norm_num) (by norm_num) (by norm_num)
    (Or.inl (by
      norm_num [roiStartRaw, roiWidthClamped, fullImgPos, pyInt,
        Int.ceil_neg]))
  exact h.1

/-! ## Claim C3 -/

/-- Band start as the spec words it, for comparison with the code: the
width clamped to `[1, extent]`, `start = round(idx + 0.5 - width/2)` with
`idx` the unt​runcated image-space index, then clamped to
`[0, extent - width]`. -/
def specStartC3 (extent : ℕ) (idx : ℚ) (width : ℤ) : ℤ :=
  let w : ℤ := min (extent : ℤ) (max 1 width)
  min (max 0 (round (idx + 1/2 - (w : ℚ)/2))) ((extent : ℤ) - w)

/-- C3 counterexample: at `position = 2.7` (origin 0, scale 1, width 2,
5 rows), the spec's formula gives band start `round(2.7 + 0.5 - 1) = 2`,
but the code truncates the index to `int(2.7) = 2` first and then
truncates again: `int(2 + 0.5 - 1) = 1`; the returned ROI bounds are
`[1, 1, 3, 3]`, not `[2, 2, 4, 4]`, and the profile is the mean of rows
1-2, not rows 2-3. -/
theorem c3_counterexample :
    specStartC3 5 (27/10) 2 = 2 ∧
    roiStartClamped 5 (fullImgPos (0, 0) (1, 1) (27/10) false) 2 = 1 ∧
    (alignedFullProfile 5 1 (fun i _ => (i : ℚ)) (0, 0) (1, 1) (27/10) 2
        false).areaY = [1, 1, 3, 3] ∧
    (alignedFullProfile 5 1 (fun i _ => (i : ℚ)) (0, 0) (1, 1) (27/10) 2
        false).profile = [some (3/2)] ∧
    ¬ roiStartClamped 5 (fullImgPos (0, 0) (1, 1) (27/10) false) 2
        = specStartC3 5 (27/10) 2 := by
  norm_num [alignedFullProfile, specStartC3, roiWidthClamped, roiStartClamped,
    roiStartRaw, fullImgPos, pyInt, meanQ, List.range_succ, round_eq,
    Int.toNat_ofNat]
  simp [List.range_succ] <;> norm_num

/-- C3 as amended: for `roiWidth ≥ 1` (guaranteed by the caller through
`max(1, spinbox)`) and a non-empty image, the effective width is
`min(roiWidth, extent) ∈ [1, extent]`; the index is truncated to an
integer before centering (`start = int(int(idx) + 0.5 - width/2)`, Python
truncation, not `round` of the untruncated index), the start is then
clamped to `[0, extent - width]` and `end = start + width`; the band is
fully inside the image, and when the unclamped centered band already fits
the clamp leaves it unchanged. -/
theorem c3_band_formula (height width : ℕ) (img : Img)
    (origin scale : ℚ × ℚ) (position : ℚ) (roiWidth : ℤ) (axis : Bool)
    (hh : 1 ≤ (if axis then width else height)) (hrw : 1 ≤ roiWidth)
    (hscale : (if axis then scale.1 else scale.2) ≠ 0) :
    1 ≤ roiWidthClamped (if axis then width else height) roiWidth ∧
    roiWidthClamped (if axis then width else height) roiWidth
      ≤ (((if axis then width else height) : ℕ) : ℤ) ∧
    0 ≤ roiStartClamped (if axis then width else height)
        (fullImgPos origin scale position axis) roiWidth ∧
    roiStartClamped (if axis then width else height)
        (fullImgPos origin scale position axis) roiWidth
      + roiWidthClamped (if axis then width else height) roiWidth
      ≤ (((if axis then width else height) : ℕ) : ℤ) ∧
    (if axis then
        (alignedFullProfile height width img origin scale position roiWidth
          axis).areaX
      else
        (alignedFullProfile height width img origin scale position roiWidth
          axis).areaY)
      = [roiStartClamped (if axis then width else height)
           (fullImgPos origin scale position axis) roiWidth,
         roiStartClamped (if axis then width else height)
           (fullImgPos origin scale position axis) roiWidth,
         roiStartClamped (if axis then width else height)
           (fullImgPos origin scale position axis) roiWidth
           + roiWidthClamped (if axis then width else height) roiWidth,
         roiStartClamped (if axis then width else height)
           (fullImgPos origin scale position axis) roiWidth
           + roiWidthClamped (if axis then width else height) roiWidth].map
          (fun v => (v : ℚ) * scale.2 + origin.2) ∧
    (0 ≤ roiStartRaw (if axis then width else height)
          (fullImgPos origin scale position axis) roiWidth ∧
      roiStartRaw (if axis then width else height)
          (fullImgPos origin scale position axis) roiWidth
        + roiWidthClamped (if axis then width else height) roiWidth
        ≤ (((if axis then width else height) : ℕ) : ℤ) →
      roiStartClamped (if axis then width else height)
          (fullImgPos origin scale position axis) roiWidth
        = roiStartRaw (if axis then width else height)
            (fullImgPos origin scale position axis) roiWidth) := by
  obtain ⟨f1, f2, f3, f4⟩ :=
    roiBand_facts (if axis then width else height)
      (fullImgPos origin scale position axis) roiWidth hh hrw
  refine ⟨f1, f2, f3, f4,
    alignedFullProfile_roiBounds height width img origin scale position
      roiWidth axis, fun hfit => ?_⟩
  unfold roiStartClamped roiWidthClamped at *
  omega

/-- Witness for C3 as amended, at the counterexample's concrete input:
the code's ROI bounds are those of the truncation-based band. -/
theorem c3_band_formula_witness :
    (alignedFullProfile 5 1 (fun i _ => (i : ℚ)) (0, 0) (1, 1) (27/10) 2
        false).areaY = [1, 1, 3, 3] := by
  have h := c3_band_formula 5 1 (fun i _ => (i : ℚ)) (0, 0) (1, 1) (27/10) 2
    false (by norm_num) (by norm_num) (by norm_num)
  have h5 := h.2.2.2.2.1
  simp only [Bool.false_eq_true, if_false] at h5
  rw [h5]
  norm_num [roiWidthClamped, roiStartClamped, roiStartRaw, fullImgPos, pyInt]

/-! ## Claim C8 -/

/-- C8 counterexample: a zero-length line (`roiStart = roiEnd =
(1.2, 1.2)` on a 3×3 image) is not rejected: it is routed through the
axis-aligned fast path, the constructed ranges are valid (`min < max`),
and a computed single-sample profile is returned instead of an
InvalidRange error. -/
theorem c8_counterexample :
    updateProfileLine 3 3 (fun i j => (3 * i + j : ℚ)) (0, 0) (1, 1)
        (12/10, 12/10) (12/10, 12/10) 1
      = .aligned (.ok [some 4]) ∧
    LineProfileOutcome.aligned (.ok [some (4 : ℚ)])
      ≠ .aligned (.error ()) := by
  refine ⟨?_, by simp⟩
  norm_num [updateProfileLine, alignedPartialProfile, pyInt, meanQ,
    List.range_succ, Int.toNat_ofNat]

/-- C8 as amended: degenerate ranges (`rowRange[0] >= rowRange[1]` or
`colRange[0] >= colRange[1]`) are rejected by the assertions of
`_alignedPartialProfile` (the InvalidRange contract violation) and
produce no computed result; a zero-length line, however, is not
degenerate input for this check: `updateProfile` routes it through the
axis-aligned path with valid one-wide ranges and a computed single-point
profile is returned. -/
theorem c8_invalid_range_rejected (height width : ℕ) (img : Img)
    (rowRange colRange : ℤ × ℤ) (axis : Bool)
    (hdeg : rowRange.2 ≤ rowRange.1 ∨ colRange.2 ≤ colRange.1) :
    alignedPartialProfile height width img rowRange colRange axis
      = .error () := by
  unfold alignedPartialProfile
  rcases hdeg with h | h
  · rw [if_neg (by omega)]
  · rcases lt_or_le rowRange.1 rowRange.2 with h2 | h2
    · rw [if_pos h2, if_neg (by omega)]
    · rw [if_neg (by omega)]

/-- Witness for C8 as amended: an empty row range is rejected. -/
theorem c8_invalid_range_rejected_witness :
    alignedPartialProfile 3 3 (fun _ _ => 0) (2, 2) (0, 3) false
      = .error () :=
  c8_invalid_range_rejected 3 3 (fun _ _ => 0) (2, 2) (0, 3) false
    (Or.inl (by norm_num))

/-! ## Claim C4 -/

lemma getD_map_range {α : Type _} (n : ℕ) (f : ℕ → α) (k : ℕ) (d : α) :
    ((List.range n).map f).getD k d = if k < n then f k else d := by
  by_cases h : k < n
  · rw [if_pos h, List.getD_eq_getElem _ _ (by simpa using h)]
    simp
  · rw [if_neg h, List.getD_eq_default _ _ (by simpa using Nat.le_of_not_lt h)]

/-- C4 counterexample: with `rowRange = (-2, -1)` entirely above a 1×1
image and `colRange = (0, 1)` inside it (`axis = 0`), the profile entry
is the NaN of `numpy.mean` over an empty slice (`none`), not the zero
fill the claim promises for out-of-image portions. -/
theorem c4_counterexample :
    alignedPartialProfile 1 1 (fun _ _ => 5) (-2, -1) (0, 1) false
      = .ok [none] ∧
    (Except.ok [(none : Option ℚ)] : Except Unit (List (Option ℚ)))
      ≠ .ok [some 0] := by
  refine ⟨?_, by simp⟩
  norm_num [alignedPartialProfile, pyInt, meanQ, List.range_succ,
    Int.toNat_ofNat, Int.ceil_neg]

/-- C4 as amended: for valid ranges (`min < max`) whose projection on the
reduction axis meets the image, the profile has length
`abs(profileRange[1] - profileRange[0])` (the requested range, not the
clamped intersection); the entry for profile-axis coordinate
`profileRange[0] + k` is the mean of the clipped reduction slice when
that coordinate is inside the image — equivalently the ROI/image
intersection placed at offset `-min(0, profileRange[0])` — and zero
otherwise.  When the reduction-axis projection misses the image, the
in-image entries are instead the NaN of an empty-slice mean. -/
theorem c4_partial_profile_layout (height width : ℕ) (img : Img)
    (rowRange colRange : ℤ × ℤ) (axis : Bool)
    (h1 : rowRange.1 < rowRange.2) (h2 : colRange.1 < colRange.2)
    (h3 : if axis then
        min (max 0 colRange.1) (width : ℤ) < min (max 0 colRange.2) (width : ℤ)
      else
        min (max 0 rowRange.1) (height : ℤ)
          < min (max 0 rowRange.2) (height : ℤ)) :
    alignedPartialProfile height width img rowRange colRange axis
      = .ok ((List.range
          (((if axis then rowRange else colRange).2
            - (if axis then rowRange else colRange).1).natAbs)).map
          fun (k : ℕ) =>
        if 0 ≤ (if axis then rowRange else colRange).1 + (k : ℤ) ∧
            (if axis then rowRange else colRange).1 + (k : ℤ)
              < (((if axis then height else width) : ℕ) : ℤ) then
          if axis then
            some (((List.range (min (max 0 colRange.2) (width : ℤ)
                  - min (max 0 colRange.1) (width : ℤ)).toNat).map fun j =>
                img ((rowRange.1 + (k : ℤ)).toNat)
                  ((min (max 0 colRange.1) (width : ℤ)).toNat + j)).sum
              / ((min (max 0 colRange.2) (width : ℤ)
                  - min (max 0 colRange.1) (width : ℤ)).toNat : ℚ))
          else
            some (((List.range (min (max 0 rowRange.2) (height : ℤ)
                  - min (max 0 rowRange.1) (height : ℤ)).toNat).map fun i =>
                img ((min (max 0 rowRange.1) (height : ℤ)).toNat + i)
                  ((colRange.1 + (k : ℤ)).toNat)).sum
              / ((min (max 0 rowRange.2) (height : ℤ)
                  - min (max 0 rowRange.1) (height : ℤ)).toNat : ℚ))
        else some 0) ∧
    ∀ prof, alignedPartialProfile height width img rowRange colRange axis
        = .ok prof →
      prof.length = ((if axis then rowRange else colRange).2
        - (if axis then rowRange else colRange).1).natAbs := by
  refine ⟨?_, fun prof h => ?_⟩
  case refine_2 =>
    unfold alignedPartialProfile at h
    rw [if_pos h1, if_pos h2] at h
    injection h with h
    subst h
    simp
  cases axis
  case false =>
    simp only [Bool.false_eq_true, if_false] at h3 ⊢
    unfold alignedPartialProfile
    rw [if_pos h1, if_pos h2]
    simp only [Bool.false_eq_true, if_false]
    refine congrArg Except.ok (List.map_congr_left fun k hk => ?_)
    rw [List.mem_range] at hk
    simp only [List.length_map, List.length_range]
    by_cases hc : 0 ≤ colRange.1 + (k : ℤ) ∧
        colRange.1 + (k : ℤ) < (width : ℤ)
    · rw [if_pos (by omega), if_pos hc, getD_map_range,
        if_pos (show ((k : ℤ) - - min 0 colRange.1).toNat
          < (min (max 0 colRange.2) (width : ℤ)
            - min (max 0 colRange.1) (width : ℤ)).toNat by omega)]
      have hcol : (min (max 0 colRange.1) (width : ℤ)).toNat
          + ((k : ℤ) - - min 0 colRange.1).toNat
          = (colRange.1 + (k : ℤ)).toNat := by omega
      simp only [hcol, meanQ, List.length_map, List.length_range]
      rw [if_neg (by omega)]
    · rw [if_neg hc]
      by_cases hp : - min 0 colRange.1 ≤ (k : ℤ) ∧
          (k : ℤ) < - min 0 colRange.1
            + ((min (max 0 colRange.2) (width : ℤ)
              - min (max 0 colRange.1) (width : ℤ)).toNat : ℤ)
      · exact absurd hp (by omega)
      · rw [if_neg hp]
  case true =>
    simp only [if_true] at h3 ⊢
    unfold alignedPartialProfile
    rw [if_pos h1, if_pos h2]
    simp only [if_true]
    refine congrArg Except.ok (List.map_congr_left fun k hk => ?_)
    rw [List.mem_range] at hk
    simp only [List.length_map, List.length_range]
    by_cases hc : 0 ≤ rowRange.1 + (k : ℤ) ∧
        rowRange.1 + (k : ℤ) < (height : ℤ)
    · rw [if_pos (by omega), if_pos hc, getD_map_range,
        if_pos (show ((k : ℤ) - - min 0 rowRange.1).toNat
          < (min (max 0 rowRange.2) (height : ℤ)
            - min (max 0 rowRange.1) (height : ℤ)).toNat by omega)]
      have hrow : (min (max 0 rowRange.1) (height : ℤ)).toNat
          + ((k : ℤ) - - min 0 rowRange.1).toNat
          = (rowRange.1 + (k : ℤ)).toNat := by omega
      simp only [hrow, meanQ, List.length_map, List.length_range]
      rw [if_neg (by omega)]
    · rw [if_neg hc]
      by_cases hp : - min 0 rowRange.1 ≤ (k : ℤ) ∧
          (k : ℤ) < - min 0 rowRange.1
            + ((min (max 0 rowRange.2) (height : ℤ)
              - min (max 0 rowRange.1) (height : ℤ)).toNat : ℤ)
      · exact absurd hp (by omega)
      · rw [if_neg hp]

/-- Witness for C4 as amended: requested columns `[-1, 2)` on a 1×1 image
of value 5 give the length-3 profile `[0, 5, 0]`: the single in-image
column mean placed at offset 1, zeros elsewhere. -/
theorem c4_partial_profile_layout_witness :
    alignedPartialProfile 1 1 (fun _ _ => 5) (0, 1) (-1, 2) false
      = .ok [some 0, some 5, some 0] := by
  have h := c4_partial_profile_layout 1 1 (fun _ _ => 5) (0, 1) (-1, 2)
    false (by norm_num) (by norm_num) (by norm_num)
  rw [h.1]
  norm_num [List.range_succ, Int.toNat_ofNat]

/-! ## Claim C9 -/

/-- C9: during a `PositionInfo` readout, a converter that raises only
affects its own field, which displays the text `Error`; every other
field is still evaluated and shows its own converted value (formatted as
a number for `numbers.Real` results, as `str(value)` otherwise). -/
theorem c9_converter_error_isolated
    (fields : List (String × (ℚ → ℚ → Except Unit ConvValue))) (x y : ℚ) :
    (plotEventFields fields x y).length = fields.length ∧
    ∀ i : ℕ, ∀ hi : i < fields.length,
      ((fields.get ⟨i, hi⟩).2 x y = .error () →
        (plotEventFields fields x y).getD i (.numText 0) = .errorText) ∧
      (∀ q, (fields.get ⟨i, hi⟩).2 x y = .ok (.num q) →
        (plotEventFields fields x y).getD i .errorText = .numText q) ∧
      (∀ s, (fields.get ⟨i, hi⟩).2 x y = .ok (.other s) →
        (plotEventFields fields x y).getD i .errorText = .strText s) := by
  refine ⟨by simp [plotEventFields], fun i hi => ?_⟩
  have hgd : ∀ d : FieldText, (plotEventFields fields x y).getD i d
      = (plotEventFields fields x y).get
        ⟨i, by simpa [plotEventFields] using hi⟩ := by
    intro d
    rw [List.getD_eq_getElem _ _ (by simpa [plotEventFields] using hi)]
    simp [List.get_eq_getElem]
  have hval : (plotEventFields fields x y).get
      ⟨i, by simpa [plotEventFields] using hi⟩
      = match (fields.get ⟨i, hi⟩).2 x y with
        | .error _ => .errorText
        | .ok (.num q) => .numText q
        | .ok (.other s) => .strText s := by
    simp [plotEventFields, List.get_eq_getElem]
  refine ⟨fun h => ?_, fun q h => ?_, fun s h => ?_⟩ <;>
    rw [hgd, hval, h]

/-! ## Claim C5 -/

/-- C5: for every non-empty positions list and angle list of length at
least 2, the vertex and normal buffers produced by
`_CylindricalVolume._setData` have exactly
`len(positions) * (len(angles) - 1) * 12` rows of 3 components; in
particular each position instance contributes `(len(angles) - 1) * 12`
vertices (so `k * 12` for `k` equal angular steps spanning 2π). -/
theorem c5_buffer_sizes (rcos rsin : K → K) (positions : List (Vec3 K))
    (radius height : K) (angles : List K) (flatFaces : Bool)
    (hpos : positions ≠ []) (hangles : 2 ≤ angles.length) :
    (cylVertices positions radius height rcos rsin angles).length
      = positions.length * ((angles.length - 1) * 12) ∧
    (cylNormals positions radius height rcos rsin angles flatFaces).length
      = positions.length * ((angles.length - 1) * 12) :=
  ⟨cylVertices_length .., cylNormals_length ..⟩

/-- Witness for C5: one position, three angles (two sectors), 24 rows. -/
theorem c5_buffer_sizes_witness :
    ([((0 : ℚ), 0, 0)] ≠ []) ∧ 2 ≤ ([(0 : ℚ), 1, 2]).length ∧
    ((cylVertices [((0 : ℚ), 0, 0)] 1 2 (fun _ => 0) (fun _ => 0)
        [0, 1, 2]).length = 24 ∧
     (cylNormals [((0 : ℚ), 0, 0)] 1 2 (fun _ => 0) (fun _ => 0)
        [0, 1, 2] true).length = 24) :=
  ⟨by simp, by simp,
   c5_buffer_sizes (fun _ => 0) (fun _ => 0) [((0 : ℚ), 0, 0)] 1 2
     [0, 1, 2] true (by simp) (by simp)⟩

/-! ## Claim C6 -/

/-- C6: `Mesh.setData` and `_CylindricalVolume._setData` with `None` or
empty positions store the non-mesh sentinel (the source writes the
integer `0` into `_mesh`) and attach no child to the scene primitive:
no mesh object with zero-length buffers is created. -/
theorem c6_empty_sentinel (position : Option (List (Vec3 K)))
    (color : List K) (normal : Option (List (Vec3 K))) (mode : String)
    (radius height : K) (angles : List K) (flatFaces : Bool)
    (rcos rsin : K → K)
    (h : position = none ∨ position = some []) :
    (meshSetData position color normal mode).meshRef = .sentinel ∧
    (meshSetData position color normal mode).children = [] ∧
    (cylSetData position radius height angles color flatFaces
      rcos rsin).meshRef = .sentinel ∧
    (cylSetData position radius height angles color flatFaces
      rcos rsin).children = [] := by
  rcases h with rfl | rfl <;> simp [meshSetData, cylSetData]

/-- Witness for C6 at the concrete empty-list input. -/
theorem c6_empty_sentinel_witness :
    ((some [] : Option (List (Vec3 ℚ))) = none ∨
      (some [] : Option (List (Vec3 ℚ))) = some []) ∧
    ((meshSetData (K := ℚ) (some []) [] none "triangles").meshRef
        = .sentinel ∧
     (meshSetData (K := ℚ) (some []) [] none "triangles").children = [] ∧
     (cylSetData (K := ℚ) (some []) 1 1 [0, 1] [] true
        (fun _ => 0) (fun _ => 0)).meshRef = .sentinel ∧
     (cylSetData (K := ℚ) (some []) 1 1 [0, 1] [] true
        (fun _ => 0) (fun _ => 0)).children = []) :=
  ⟨Or.inr rfl,
   c6_empty_sentinel (some []) [] none "triangles" 1 1 [0, 1] true
     (fun _ => 0) (fun _ => 0) (Or.inr rfl)⟩

/-! ## Claim C7 -/

/-- Coordinate-wise minimum of a list (the bounding-box lower corner
along one coordinate); `none` for an empty buffer. -/
def listMin : List ℝ → Option ℝ
  | [] => none
  | x :: xs => some (xs.foldl min x)

/-- Coordinate-wise maximum of a list. -/
def listMax : List ℝ → Option ℝ
  | [] => none
  | x :: xs => some (xs.foldl max x)

lemma foldl_min_map_add (l : List ℝ) (x c : ℝ) :
    (l.map (fun a => a + c)).foldl min (x + c) = l.foldl min x + c := by
  induction l generalizing x with
  | nil => rfl
  | cons y t ih => simp only [List.map_cons, List.foldl_cons,
      min_add_add_right x y c, ih]

lemma foldl_max_map_add (l : List ℝ) (x c : ℝ) :
    (l.map (fun a => a + c)).foldl max (x + c) = l.foldl max x + c := by
  induction l generalizing x with
  | nil => rfl
  | cons y t ih => simp only [List.map_cons, List.foldl_cons,
      max_add_add_right x y c, ih]

lemma listMin_map_add (l : List ℝ) (c : ℝ) :
    listMin (l.map (fun a => a + c)) = (listMin l).map (fun a => a + c) := by
  cases l with
  | nil => rfl
  | cons x t => simp [listMin, foldl_min_map_add]

lemma listMax_map_add (l : List ℝ) (c : ℝ) :
    listMax (l.map (fun a => a + c)) = (listMax l).map (fun a => a + c) := by
  cases l with
  | nil => rfl
  | cons x t => simp [listMax, foldl_max_map_add]

lemma sqrt_sum_sq_two : Real.sqrt ((2:ℝ)^2 + 2^2) = 2 * Real.sqrt 2 := by
  rw [show ((2:ℝ)^2 + 2^2) = 2^2 * 2 by norm_num,
    Real.sqrt_mul (by positivity), Real.sqrt_sq (by norm_num)]

lemma sqrt_two_mul_self : Real.sqrt 2 * Real.sqrt 2 = 2 :=
  Real.mul_self_sqrt (by norm_num)

lemma arcsin_box_two : Real.arcsin (2 / Real.sqrt ((2:ℝ)^2 + 2^2))
    = Real.pi / 4 := by
  rw [sqrt_sum_sq_two]
  have h : (2:ℝ) / (2 * Real.sqrt 2) = Real.sqrt 2 / 2 := by
    field_simp
    linarith [sqrt_two_mul_self]
  rw [h, ← Real.sin_pi_div_four,
    Real.arcsin_sin (by linarith [Real.pi_pos]) (by linarith [Real.pi_pos])]

/-- For `size = (2, 2, 2)`: `d = 2√2`, `alpha = beta = π/2`, and the five
phase-shifted sector angles are `-π/4, π/4, 3π/4, 5π/4, 7π/4`. -/
lemma boxAngles_two_two :
    boxAngles Real.sqrt Real.arcsin Real.pi 2 2
      = [-(Real.pi/4), Real.pi/4, 3*Real.pi/4, 5*Real.pi/4, 7*Real.pi/4] := by
  simp only [boxAngles]
  rw [arcsin_box_two]
  simp only [List.map_cons, List.map_nil, List.cons.injEq, and_true]
  refine ⟨by ring, by ring, by ring, by ring, by ring⟩

lemma sqrt2_cos_a1 : Real.sqrt 2 * Real.cos (-(Real.pi/4)) = 1 := by
  rw [Real.cos_neg, Real.cos_pi_div_four]
  nlinarith [sqrt_two_mul_self]

lemma sqrt2_sin_a1 : Real.sqrt 2 * Real.sin (-(Real.pi/4)) = -1 := by
  rw [Real.sin_neg, Real.sin_pi_div_four]
  nlinarith [sqrt_two_mul_self]

lemma sqrt2_cos_a2 : Real.sqrt 2 * Real.cos (Real.pi/4) = 1 := by
  rw [Real.cos_pi_div_four]
  nlinarith [sqrt_two_mul_self]

lemma sqrt2_sin_a2 : Real.sqrt 2 * Real.sin (Real.pi/4) = 1 := by
  rw [Real.sin_pi_div_four]
  nlinarith [sqrt_two_mul_self]

lemma sqrt2_cos_a3 : Real.sqrt 2 * Real.cos (3*Real.pi/4) = -1 := by
  rw [show (3*Real.pi/4 : ℝ) = Real.pi - Real.pi/4 by ring,
    Real.cos_pi_sub, Real.cos_pi_div_four]
  nlinarith [sqrt_two_mul_self]

lemma sqrt2_sin_a3 : Real.sqrt 2 * Real.sin (3*Real.pi/4) = 1 := by
  rw [show (3*Real.pi/4 : ℝ) = Real.pi - Real.pi/4 by ring,
    Real.sin_pi_sub, Real.sin_pi_div_four]
  nlinarith [sqrt_two_mul_self]

lemma sqrt2_cos_a4 : Real.sqrt 2 * Real.cos (5*Real.pi/4) = -1 := by
  rw [show (5*Real.pi/4 : ℝ) = Real.pi + Real.pi/4 by ring, Real.cos_add,
    Real.cos_pi, Real.sin_pi, Real.cos_pi_div_four]
  nlinarith [sqrt_two_mul_self]

lemma sqrt2_sin_a4 : Real.sqrt 2 * Real.sin (5*Real.pi/4) = -1 := by
  rw [show (5*Real.pi/4 : ℝ) = Real.pi + Real.pi/4 by ring, Real.sin_add,
    Real.cos_pi, Real.sin_pi, Real.sin_pi_div_four]
  nlinarith [sqrt_two_mul_self]

lemma sqrt2_cos_a5 : Real.sqrt 2 * Real.cos (7*Real.pi/4) = 1 := by
  rw [show (7*Real.pi/4 : ℝ) = 2*Real.pi - Real.pi/4 by ring, Real.cos_sub,
    Real.cos_two_pi, Real.sin_two_pi, Real.cos_pi_div_four]
  nlinarith [sqrt_two_mul_self]

lemma sqrt2_sin_a5 : Real.sqrt 2 * Real.sin (7*Real.pi/4) = -1 := by
  rw [show (7*Real.pi/4 : ℝ) = 2*Real.pi - Real.pi/4 by ring, Real.sin_sub,
    Real.cos_two_pi, Real.sin_two_pi, Real.sin_pi_div_four]
  nlinarith [sqrt_two_mul_self]

/-- C7: `Box.setData` with `size = (2, 2, 2)` and one center position
attaches a mesh whose position buffer has coordinate-wise minimum
`center - (1, 1, 1)` and maximum `center + (1, 1, 1)` — the cube
`[-1, 1]^3` translated by the center — obtained through the angle
derivation `d = sqrt(sx² + sy²)`, `alpha = 2 asin(sy/d)`,
`beta = 2 asin(sx/d)`, angles `{0, α, α+β, α+β+α, 2π}` shifted by
`-α/2`. -/
theorem c7_box_bounding_box (cx cy cz : ℝ) :
    ∃ m : MeshObj ℝ,
      boxSetData Real.sqrt Real.arcsin Real.cos Real.sin Real.pi
          (some [(cx, cy, cz)]) (2, 2, 2) [1, 1, 1]
        = ⟨.mesh m, [m]⟩ ∧
      listMin (m.position.map fun v => v.1) = some (cx - 1) ∧
      listMax (m.position.map fun v => v.1) = some (cx + 1) ∧
      listMin (m.position.map fun v => v.2.1) = some (cy - 1) ∧
      listMax (m.position.map fun v => v.2.1) = some (cy + 1) ∧
      listMin (m.position.map fun v => v.2.2) = some (cz - 1) ∧
      listMax (m.position.map fun v => v.2.2) = some (cz + 1) ∧
      boxAngles Real.sqrt Real.arcsin Real.pi 2 2
        = [-(Real.pi/4), Real.pi/4, 3*Real.pi/4, 5*Real.pi/4, 7*Real.pi/4]
    := by
  have hrad : Real.sqrt ((2:ℝ)^2 + 2^2) / 2 = Real.sqrt 2 := by
    rw [sqrt_sum_sq_two]; ring
  have hx : (cylVertices [((cx : ℝ), cy, cz)]
      (Real.sqrt ((2:ℝ)^2 + 2^2) / 2) 2 Real.cos Real.sin
      (boxAngles Real.sqrt Real.arcsin Real.pi 2 2)).map (fun v => v.1)
      = ([0,1,1,1,1,1,1,1,1,1,1,0,
          0,-1,1,1,-1,1,-1,-1,1,1,-1,0,
          0,-1,-1,-1,-1,-1,-1,-1,-1,-1,-1,0,
          0,1,-1,-1,1,-1,1,1,-1,-1,1,0] : List ℝ).map (fun a => a + cx)
      := by
    rw [hrad, boxAngles_two_two]
    simp only [cylVertices, volumeList, sectorPairs, wedgeVolume,
      wedgeCorners, vadd, List.tail_cons, List.zip_cons_cons,
      List.zip_nil_right, List.flatMap_cons, List.flatMap_nil,
      List.map_cons, List.map_nil, List.append_nil, List.map_append,
      sqrt2_cos_a1, sqrt2_sin_a1, sqrt2_cos_a2, sqrt2_sin_a2,
      sqrt2_cos_a3, sqrt2_sin_a3, sqrt2_cos_a4, sqrt2_sin_a4,
      sqrt2_cos_a5, sqrt2_sin_a5]
    norm_num
  have hy : (cylVertices [((cx : ℝ), cy, cz)]
      (Real.sqrt ((2:ℝ)^2 + 2^2) / 2) 2 Real.cos Real.sin
      (boxAngles Real.sqrt Real.arcsin Real.pi 2 2)).map (fun v => v.2.1)
      = ([0,1,-1,-1,1,-1,1,1,-1,-1,1,0,
          0,1,1,1,1,1,1,1,1,1,1,0,
          0,-1,1,1,-1,1,-1,-1,1,1,-1,0,
          0,-1,-1,-1,-1,-1,-1,-1,-1,-1,-1,0] : List ℝ).map (fun a => a + cy)
      := by
    rw [hrad, boxAngles_two_two]
    simp only [cylVertices, volumeList, sectorPairs, wedgeVolume,
      wedgeCorners, vadd, List.tail_cons, List.zip_cons_cons,
      List.zip_nil_right, List.flatMap_cons, List.flatMap_nil,
      List.map_cons, List.map_nil, List.append_nil, List.map_append,
      sqrt2_cos_a1, sqrt2_sin_a1, sqrt2_cos_a2, sqrt2_sin_a2,
      sqrt2_cos_a3, sqrt2_sin_a3, sqrt2_cos_a4, sqrt2_sin_a4,
      sqrt2_cos_a5, sqrt2_sin_a5]
    norm_num
  have hz : (cylVertices [((cx : ℝ), cy, cz)]
      (Real.sqrt ((2:ℝ)^2 + 2^2) / 2) 2 Real.cos Real.sin
      (boxAngles Real.sqrt Real.arcsin Real.pi 2 2)).map (fun v => v.2.2)
      = ([-1,-1,-1,-1,-1,1,-1,1,1,1,1,1,
          -1,-1,-1,-1,-1,1,-1,1,1,1,1,1,
          -1,-1,-1,-1,-1,1,-1,1,1,1,1,1,
          -1,-1,-1,-1,-1,1,-1,1,1,1,1,1] : List ℝ).map (fun a => a + cz)
      := by
    rw [hrad, boxAngles_two_two]
    simp only [cylVertices, volumeList, sectorPairs, wedgeVolume,
      wedgeCorners, vadd, List.tail_cons, List.zip_cons_cons,
      List.zip_nil_right, List.flatMap_cons, List.flatMap_nil,
      List.map_cons, List.map_nil, List.append_nil, List.map_append,
      sqrt2_cos_a1, sqrt2_sin_a1, sqrt2_cos_a2, sqrt2_sin_a2,
      sqrt2_cos_a3, sqrt2_sin_a3, sqrt2_cos_a4, sqrt2_sin_a4,
      sqrt2_cos_a5, sqrt2_sin_a5]
    norm_num
  refine ⟨_, rfl, ?_, ?_, ?_, ?_, ?_, ?_, boxAngles_two_two⟩ <;>
    dsimp only [boxSetData, cylSetData]
  · rw [hx, listMin_map_add,
      show listMin [(0:ℝ),1,1,1,1,1,1,1,1,1,1,0,
        0,-1,1,1,-1,1,-1,-1,1,1,-1,0,
        0,-1,-1,-1,-1,-1,-1,-1,-1,-1,-1,0,
        0,1,-1,-1,1,-1,1,1,-1,-1,1,0] = some (-1) by
          norm_num [listMin, min_def]]
    simp <;> ring_nf
  · rw [hx, listMax_map_add,
      show listMax [(0:ℝ),1,1,1,1,1,1,1,1,1,1,0,
        0,-1,1,1,-1,1,-1,-1,1,1,-1,0,
        0,-1,-1,-1,-1,-1,-1,-1,-1,-1,-1,0,
        0,1,-1,-1,1,-1,1,1,-1,-1,1,0] = some 1 by
          norm_num [listMax, max_def]]
    simp <;> ring_nf
  · rw [hy, listMin_map_add,
      show listMin [(0:ℝ),1,-1,-1,1,-1,1,1,-1,-1,1,0,
        0,1,1,1,1,1,1,1,1,1,1,0,
        0,-1,1,1,-1,1,-1,-1,1,1,-1,0,
        0,-1,-1,-1,-1,-1,-1,-1,-1,-1,-1,0] = some (-1) by
          norm_num [listMin, min_def]]
    simp <;> ring_nf
  · rw [hy, listMax_map_add,
      show listMax [(0:ℝ),1,-1,-1,1,-1,1,1,-1,-1,1,0,
        0,1,1,1,1,1,1,1,1,1,1,0,
        0,-1,1,1,-1,1,-1,-1,1,1,-1,0,
        0,-1,-1,-1,-1,-1,-1,-1,-1,-1,-1,0] = some 1 by
          norm_num [listMax, max_def]]
    simp <;> ring_nf
  · rw [hz, listMin_map_add,
      show listMin [(-1:ℝ),-1,-1,-1,-1,1,-1,1,1,1,1,1,
        -1,-1,-1,-1,-1,1,-1,1,1,1,1,1,
        -1,-1,-1,-1,-1,1,-1,1,1,1,1,1,
        -1,-1,-1,-1,-1,1,-1,1,1,1,1,1] = some (-1) by
          norm_num [listMin, min_def]]
    simp <;> ring_nf
  · rw [hz, listMax_map_add,
      show listMax [(-1:ℝ),-1,-1,-1,-1,1,-1,1,1,1,1,1,
        -1,-1,-1,-1,-1,1,-1,1,1,1,1,1,
        -1,-1,-1,-1,-1,1,-1,1,1,1,1,1,
        -1,-1,-1,-1,-1,1,-1,1,1,1,1,1] = some 1 by
          norm_num [listMax, max_def]]
    simp <;> ring_nf

/-- Sample cosine used at the concrete failing input of C2: angle `0`
maps to `(1, 0)` and angle `1` (standing for π/2) to `(0, 1)`. -/
def sampleCos : ℚ → ℚ := fun a => if a = 0 then 1 else 0

/-- Sample sine matching `sampleCos`. -/
def sampleSin : ℚ → ℚ := fun a => if a = 0 then 0 else 1

/-- C2 (code bug evaluation): with `radius = 1`, `height = 2` and one
sector from angle 0 to the right angle, the `flatFaces` normal at vertex
index 10 — the `c5` vertex of the top cap triangle `(c4, c5, c6)` — is
the zero vector (`numpy.cross(c6-c5, c5-c5)`), while the other two
vertices of the same triangle (indices 9 and 11) and the triangle's own
face direction are `(0, 0, 1)`: the vertex does not receive the face
normal of its triangle. -/
theorem c2_flat_normal_zero_at_10 :
    (wedgeNormalsFlat (K := ℚ) 1 2 sampleCos sampleSin 0 1).get? 10
      = some (0, 0, 0) ∧
    cross (vsub (wedgeCorners (K := ℚ) 1 2 sampleCos sampleSin 0 1).c5
        (wedgeCorners (K := ℚ) 1 2 sampleCos sampleSin 0 1).c4)
      (vsub (wedgeCorners (K := ℚ) 1 2 sampleCos sampleSin 0 1).c6
        (wedgeCorners (K := ℚ) 1 2 sampleCos sampleSin 0 1).c4)
      = (0, 0, 1) ∧
    (wedgeNormalsFlat (K := ℚ) 1 2 sampleCos sampleSin 0 1).get? 9
      = some (0, 0, 1) ∧
    (wedgeNormalsFlat (K := ℚ) 1 2 sampleCos sampleSin 0 1).get? 11
      = some (0, 0, 1) := by
  norm_num [wedgeNormalsFlat, wedgeCorners, cross, vsub, sampleCos,
    sampleSin]

end Silx
